import Mathlib

/-!
Verification of the Task Manager API against its specification.

This development shallowly embeds the request handlers of the service
(`src/routes/tasks.ts`, the category routes, `src/utils/jwt.ts`,
`src/server.ts`) over an explicit store of task and category records,
and proves or refutes the specified properties of owner scoping,
uniform not-found responses, query validation, token issuance and
verification, pagination, statistics, and name uniqueness.
-/

namespace TaskManager

/-- Task status enumeration, from `prisma/schema.prisma` (`enum TaskStatus`). -/
inductive TaskStatus where
  | PENDING
  | IN_PROGRESS
  | COMPLETED
  | CANCELLED
deriving DecidableEq, Repr

/-- A task record, from `model Task` in `prisma/schema.prisma`.
Timestamps are integers (epoch milliseconds). -/
structure Task where
  id : String
  title : String
  description : Option String
  dueDate : Option Int
  status : TaskStatus
  userId : String
  categoryId : Option String
  createdAt : Int
deriving DecidableEq, Repr

/-- A category record, from `model Category` in `prisma/schema.prisma`. -/
structure Category where
  id : String
  name : String
  color : String
  userId : String
  createdAt : Int
deriving DecidableEq, Repr

/-- The persistent store: the task and category tables. -/
structure Store where
  tasks : List Task
  categories : List Category
deriving DecidableEq, Repr

/-- Process configuration, from the environment variables read in
`src/utils/jwt.ts` (`JWT_SECRET`, `JWT_REFRESH_SECRET`, `JWT_EXPIRE`,
`JWT_REFRESH_EXPIRE`). TTLs are in seconds; `none` means the variable
is unset. -/
structure Config where
  jwtSecret : Option String
  jwtRefreshSecret : Option String
  jwtExpire : Option Int
  jwtRefreshExpire : Option Int
deriving DecidableEq, Repr

/-- Effective access-token TTL: `process.env.JWT_EXPIRE || '1h'`
(`'1h'` = 3600 seconds). -/
def accessExpire (c : Config) : Int := c.jwtExpire.getD 3600

/-- Effective refresh-token TTL: `process.env.JWT_REFRESH_EXPIRE || '7d'`
(`'7d'` = 604800 seconds). -/
def refreshExpire (c : Config) : Int := c.jwtRefreshExpire.getD 604800

/-- A signed JWT, embedded symbolically: the signature is represented by
recording the key the token was signed with, so that verification with
the same key succeeds and with any other key fails. -/
structure SignedToken where
  payloadId : String
  iat : Int
  exp : Int
  issuer : String
  signedWith : String
deriving DecidableEq, Repr

/-- The decoded payload, from `interface JwtPayload` in `src/utils/jwt.ts`. -/
structure JwtPayload where
  id : String
  iat : Option Int
  exp : Option Int
deriving DecidableEq, Repr

/-- `jwt.sign(payload, secret, { expiresIn, issuer })`. -/
def jwtSign (payloadId : String) (secret : String) (expiresIn : Int) (now : Int) :
    SignedToken :=
  { payloadId := payloadId
    iat := now
    exp := now + expiresIn
    issuer := "task-manager-api"
    signedWith := secret }

/-- `jwt.verify(token, secret)`: checks the signature and that the token
is not expired (valid while `now < exp`). -/
def jwtVerify (tok : SignedToken) (secret : String) (now : Int) :
    Except String JwtPayload :=
  if tok.signedWith = secret then
    if now < tok.exp then
      .ok { id := tok.payloadId, iat := some tok.iat, exp := some tok.exp }
    else .error "jwt expired"
  else .error "invalid signature"

/-- `generateAccessToken` from `src/utils/jwt.ts`: throws when
`JWT_SECRET` is unset, otherwise signs `{ id: userId }` with the access
secret and TTL. -/
def generateAccessToken (c : Config) (userId : String) (now : Int) :
    Except String SignedToken :=
  match c.jwtSecret with
  | none => .error "JWT_SECRET environment variable is not set"
  | some secret => .ok (jwtSign userId secret (accessExpire c) now)

/-- `generateRefreshToken` from `src/utils/jwt.ts`. -/
def generateRefreshToken (c : Config) (userId : String) (now : Int) :
    Except String SignedToken :=
  match c.jwtRefreshSecret with
  | none => .error "JWT_REFRESH_SECRET environment variable is not set"
  | some secret => .ok (jwtSign userId secret (refreshExpire c) now)

/-- `verifyAccessToken` from `src/utils/jwt.ts`: throws when `JWT_SECRET`
is unset; any verification failure is collapsed to the single message
`Invalid or expired token`. -/
def verifyAccessToken (c : Config) (token : SignedToken) (now : Int) :
    Except String JwtPayload :=
  match c.jwtSecret with
  | none => .error "JWT_SECRET environment variable is not set"
  | some secret =>
    match jwtVerify token secret now with
    | .ok p => .ok p
    | .error _ => .error "Invalid or expired token"

/-- `verifyRefreshToken` from `src/utils/jwt.ts`. -/
def verifyRefreshToken (c : Config) (token : SignedToken) (now : Int) :
    Except String JwtPayload :=
  match c.jwtRefreshSecret with
  | none => .error "JWT_REFRESH_SECRET environment variable is not set"
  | some secret =>
    match jwtVerify token secret now with
    | .ok p => .ok p
    | .error _ => .error "Invalid or expired refresh token"

/-- `startServer` from `src/server.ts`: the only startup check performed
is `prisma.$connect()`; the server starts (begins accepting requests)
exactly when the database connection succeeds. No environment variable
other than `PORT` is consulted; in particular neither signing secret is
read at startup. -/
def serverStarts (_c : Config) (dbConnects : Bool) : Bool := dbConnects

/-- A configuration with no secrets set. -/
def cfgNoSecrets : Config :=
  { jwtSecret := none, jwtRefreshSecret := none
    jwtExpire := none, jwtRefreshExpire := none }

/-- The `select { id, name, color }` projection used by the task routes
when including a task's category. -/
structure CategoryInfo where
  id : String
  name : String
  color : String
deriving DecidableEq, Repr

/-- Resolving the `include: { category: ... }` relation of a task:
the related category is looked up by its id, with no further filter. -/
def categoryInfoOf (cats : List Category) : Option String → Option CategoryInfo
  | none => none
  | some cid =>
    (cats.find? (fun c => c.id == cid)).map (fun c => ⟨c.id, c.name, c.color⟩)

/-- A task as returned by the task routes: the record plus its included
category projection. -/
structure TaskOut where
  task : Task
  category : Option CategoryInfo
deriving DecidableEq, Repr

/-- A handler response: success payload, or an error with HTTP status
code and message, as produced by `res.status(code).json({ message })`. -/
inductive Resp (α : Type) where
  | ok : α → Resp α
  | err : Nat → String → Resp α
deriving DecidableEq, Repr

/-- The query parameters of `GET /api/tasks`, with the defaults destructured
in `getTasks` (`page = '1'`, `limit = '10'`, `sortBy = 'createdAt'`,
`sortOrder = 'desc'`). Absent optional filters are `none`. -/
structure TaskQuery where
  page : Nat := 1
  limit : Nat := 10
  status : Option TaskStatus := none
  categoryId : Option String := none
  search : Option String := none
  sortBy : String := "createdAt"
  sortOrder : String := "desc"
deriving DecidableEq, Repr

/-- Case-insensitive substring match: `{ contains: s, mode: 'insensitive' }`. -/
def strContainsCI (hay needle : String) : Bool :=
  decide (needle.toLower.toList <:+: hay.toLower.toList)

/-- The `where` clause built by `getTasks`: always `{ userId }`, plus the
status, categoryId and search filters when supplied. -/
def taskWhere (u : String) (q : TaskQuery) (t : Task) : Bool :=
  t.userId == u &&
  (match q.status with | none => true | some st => t.status == st) &&
  (match q.categoryId with | none => true | some cid => t.categoryId == some cid) &&
  (match q.search with
   | none => true
   | some str =>
     strContainsCI t.title str ||
     (match t.description with | none => false | some d => strContainsCI d str))

/-- An `orderBy` object handed to the persistence layer. -/
structure OrderBy where
  field : String
  direction : String
deriving DecidableEq, Repr

/-- The `orderBy` clause built by `getTasks`:
`orderBy[sortBy as string] = sortOrder`. The caller-supplied field name is
used as-is; no validation is performed. -/
def taskOrderBy (q : TaskQuery) : OrderBy :=
  { field := q.sortBy, direction := q.sortOrder }

/-- Position of a status in the enum declaration (the order Postgres uses
when sorting an enum column). -/
def statusRank : TaskStatus → Nat
  | .PENDING => 0
  | .IN_PROGRESS => 1
  | .COMPLETED => 2
  | .CANCELLED => 3

/-- Ascending comparison of two tasks on a named column. -/
def fieldLe : String → Task → Task → Bool
  | "createdAt", a, b => decide (a.createdAt ≤ b.createdAt)
  | "dueDate", a, b =>
    match a.dueDate, b.dueDate with
    | some x, some y => decide (x ≤ y)
    | some _, none => true
    | none, some _ => false
    | none, none => true
  | "title", a, b => decide (a.title ≤ b.title)
  | "status", a, b => decide (statusRank a.status ≤ statusRank b.status)
  | _, _, _ => true

/-- Comparison induced by an `orderBy` clause (`desc` flips the order). -/
def taskLe (ob : OrderBy) (a b : Task) : Bool :=
  if ob.direction == "desc" then fieldLe ob.field b a else fieldLe ob.field a b

/-- Insertion into a sorted list. -/
def insertSorted {α : Type} (le : α → α → Bool) (t : α) : List α → List α
  | [] => [t]
  | x :: xs => if le t x then t :: x :: xs else x :: insertSorted le t xs

/-- Insertion sort with a boolean comparison. -/
def sortLe {α : Type} (le : α → α → Bool) : List α → List α
  | [] => []
  | x :: xs => insertSorted le x (sortLe le xs)

/-- The scalar columns of the `Task` model, the only names the persistence
collaborator accepts in an `orderBy` clause. -/
def knownSortField (f : String) : Bool :=
  f == "id" || f == "title" || f == "description" || f == "dueDate" ||
  f == "status" || f == "userId" || f == "categoryId" ||
  f == "createdAt" || f == "updatedAt"

/-- Modelled from the spec: the persistence collaborator (the Prisma client,
excluded from the core and absent from `src/`) applies an `orderBy` clause
naming a known column, and rejects a clause naming an unknown column or an
invalid direction with a generic failure, which the spec maps to the
`Internal` (500) error class, not to a validation error. -/
def persistenceFindTasks (ob : OrderBy) (matching : List Task) :
    Except String (List Task) :=
  if knownSortField ob.field && (ob.direction == "asc" || ob.direction == "desc") then
    .ok (sortLe (taskLe ob) matching)
  else .error "Unknown argument in orderBy"

/-- The pagination block of a `getTasks` response. -/
structure Pagination where
  page : Nat
  limit : Nat
  total : Nat
  pages : Nat
deriving DecidableEq, Repr

/-- The payload of a `getTasks` response. -/
structure TasksPage where
  tasks : List TaskOut
  pagination : Pagination
deriving DecidableEq, Repr

/-- `Math.ceil(total / limitNum)` on naturals (for positive `limit`). -/
def jsCeil (total limit : Nat) : Nat :=
  total / limit + (if total % limit == 0 then 0 else 1)

/-- `getTasks` from `src/routes/tasks.ts`: builds the owner-scoped `where`
clause and the unvalidated `orderBy`, fetches the page window with
`skip = (page-1)*limit` and `take = limit`, counts all matching records,
and reports `pages = Math.ceil(total / limit)`. -/
def getTasks (u : String) (q : TaskQuery) (s : Store) : Resp TasksPage :=
  let skip := (q.page - 1) * q.limit
  let matching := s.tasks.filter (taskWhere u q)
  match persistenceFindTasks (taskOrderBy q) matching with
  | .error _ => .err 500 "Internal server error"
  | .ok sorted =>
    let window := (sorted.drop skip).take q.limit
    let total := s.tasks.countP (taskWhere u q)
    .ok { tasks := window.map (fun t => ⟨t, categoryInfoOf s.categories t.categoryId⟩)
          pagination :=
            { page := q.page, limit := q.limit
              total := total, pages := jsCeil total q.limit } }

/-- `getTask` from `src/routes/tasks.ts`: a single
`findFirst({ where: { id, userId } })`; `null` becomes a 404. -/
def getTask (u : String) (id : String) (s : Store) : Resp TaskOut :=
  match s.tasks.find? (fun t => t.id == id && t.userId == u) with
  | none => .err 404 "Task not found"
  | some t => .ok ⟨t, categoryInfoOf s.categories t.categoryId⟩

/-- The body of `POST /api/tasks` (after Joi validation). -/
structure CreateTaskBody where
  title : String
  description : Option String := none
  dueDate : Option Int := none
  status : Option TaskStatus := none
  categoryId : Option String := none
deriving DecidableEq, Repr

/-- The write performed by `createTask` once the category check passed:
`status: status || 'PENDING'`, owner set to the authenticated user. -/
def createTaskWrite (u : String) (b : CreateTaskBody) (newId : String) (now : Int)
    (s : Store) : Resp TaskOut × Store :=
  let t : Task :=
    { id := newId, title := b.title, description := b.description
      dueDate := b.dueDate, status := b.status.getD .PENDING
      userId := u, categoryId := b.categoryId, createdAt := now }
  (.ok ⟨t, categoryInfoOf s.categories t.categoryId⟩,
   { s with tasks := s.tasks ++ [t] })

/-- `createTask` from `src/routes/tasks.ts`: when a category id is supplied,
it must name a category owned by the authenticated user
(`findFirst({ where: { id: categoryId, userId } })`), else 400. -/
def createTask (u : String) (b : CreateTaskBody) (newId : String) (now : Int)
    (s : Store) : Resp TaskOut × Store :=
  match b.categoryId with
  | some cid =>
    match s.categories.find? (fun c => c.id == cid && c.userId == u) with
    | none => (.err 400 "Category not found or does not belong to user", s)
    | some _ => createTaskWrite u b newId now s
  | none => createTaskWrite u b newId now s

/-- The body of `PUT /api/tasks/:id`. The outer `Option` is JavaScript
`undefined` (field absent); for `dueDate` and `categoryId` the inner
`Option` distinguishes `null` from a value. -/
structure UpdateTaskBody where
  title : Option String := none
  description : Option String := none
  dueDate : Option (Option Int) := none
  status : Option TaskStatus := none
  categoryId : Option (Option String) := none
deriving DecidableEq, Repr

/-- The spread-built `data` object of `prisma.task.update` in `updateTask`:
`title` and `status` are applied only when truthy, `description`,
`dueDate` and `categoryId` whenever defined. -/
def applyTaskUpdate (b : UpdateTaskBody) (t : Task) : Task :=
  { t with
    title := match b.title with
             | some str => if str == "" then t.title else str
             | none => t.title
    description := match b.description with
                   | some d => some d
                   | none => t.description
    dueDate := match b.dueDate with
               | some v => v
               | none => t.dueDate
    status := match b.status with
              | some st => st
              | none => t.status
    categoryId := match b.categoryId with
                  | some v => v
                  | none => t.categoryId }

/-- `updateTask` from `src/routes/tasks.ts`: owner-scoped existence check
(404), then category-ownership check for a truthy new category id (400),
then `prisma.task.update({ where: { id } })`, which targets the record by
id alone. -/
def updateTask (u id : String) (b : UpdateTaskBody) (s : Store) :
    Resp TaskOut × Store :=
  match s.tasks.find? (fun t => t.id == id && t.userId == u) with
  | none => (.err 404 "Task not found", s)
  | some _ =>
    let catOk : Bool :=
      match b.categoryId with
      | some (some cid) =>
        (s.categories.find? (fun c => c.id == cid && c.userId == u)).isSome
      | _ => true
    if catOk then
      match s.tasks.find? (fun t => t.id == id) with
      | none => (.err 500 "Internal server error", s)
      | some t0 =>
        let t' := applyTaskUpdate b t0
        (.ok ⟨t', categoryInfoOf s.categories t'.categoryId⟩,
         { s with tasks := s.tasks.map (fun t => if t.id == id then applyTaskUpdate b t else t) })
    else (.err 400 "Category not found or does not belong to user", s)

/-- `deleteTask` from `src/routes/tasks.ts`: owner-scoped existence check
(404), then `prisma.task.delete({ where: { id } })`. -/
def deleteTask (u id : String) (s : Store) : Resp Unit × Store :=
  match s.tasks.find? (fun t => t.id == id && t.userId == u) with
  | none => (.err 404 "Task not found", s)
  | some _ => (.ok (), { s with tasks := s.tasks.filter (fun t => !(t.id == id)) })

/-- The payload of `GET /api/tasks/stats`. -/
structure TaskStats where
  totalTasks : Nat
  pendingTasks : Nat
  inProgressTasks : Nat
  completedTasks : Nat
  overdueTasks : Nat
deriving DecidableEq, Repr

/-- The `where` clause of the overdue count in `getTaskStats`:
`{ userId, dueDate: { lt: new Date() }, status: { notIn: ['COMPLETED', 'CANCELLED'] } }`.
A task with no due date never matches `dueDate: { lt: ... }`. -/
def overdueWhere (u : String) (now : Int) (t : Task) : Bool :=
  t.userId == u &&
  (match t.dueDate with | some d => decide (d < now) | none => false) &&
  !(t.status == .COMPLETED || t.status == .CANCELLED)

/-- `getTaskStats` from `src/routes/tasks.ts`: five owner-scoped counts. -/
def getTaskStats (u : String) (now : Int) (s : Store) : TaskStats :=
  { totalTasks := s.tasks.countP (fun t => t.userId == u)
    pendingTasks := s.tasks.countP (fun t => t.userId == u && t.status == .PENDING)
    inProgressTasks := s.tasks.countP (fun t => t.userId == u && t.status == .IN_PROGRESS)
    completedTasks := s.tasks.countP (fun t => t.userId == u && t.status == .COMPLETED)
    overdueTasks := s.tasks.countP (overdueWhere u now) }

/-- A category as returned by the category routes:
the record plus its `_count.tasks` include. -/
structure CategoryOut where
  category : Category
  taskCount : Nat
deriving DecidableEq, Repr

/-- Resolving the `_count: { select: { tasks: true } }` include of a
category: the number of tasks related to it, i.e. whose `categoryId`
equals the category's id, with no further filter. -/
def categoryTaskCount (s : Store) (cid : String) : Nat :=
  s.tasks.countP (fun t => t.categoryId == some cid)

/-- `getCategories` from the category routes: all categories of the
authenticated user, newest first, each with its task count. -/
def getCategories (u : String) (s : Store) : List CategoryOut :=
  (sortLe (fun a b : Category => decide (b.createdAt ≤ a.createdAt))
      (s.categories.filter (fun c => c.userId == u))).map
    (fun c => ⟨c, categoryTaskCount s c.id⟩)

/-- The task projection included in a single-category response. -/
structure TaskSummary where
  id : String
  title : String
  status : TaskStatus
  dueDate : Option Int
  createdAt : Int
deriving DecidableEq, Repr

/-- The payload of `GET /api/categories/:id`. -/
structure CategoryDetail where
  category : Category
  taskCount : Nat
  tasks : List TaskSummary
deriving DecidableEq, Repr

/-- `getCategory` from the category routes: owner-scoped `findFirst`
(404 on `null`), including the category's task count and its related
tasks (all tasks whose `categoryId` is this id), newest first. -/
def getCategory (u id : String) (s : Store) : Resp CategoryDetail :=
  match s.categories.find? (fun c => c.id == id && c.userId == u) with
  | none => .err 404 "Category not found"
  | some c =>
    let rel := s.tasks.filter (fun t => t.categoryId == some id)
    let relSorted := sortLe (fun a b : Task => decide (b.createdAt ≤ a.createdAt)) rel
    .ok { category := c
          taskCount := rel.length
          tasks := relSorted.map (fun t => ⟨t.id, t.title, t.status, t.dueDate, t.createdAt⟩) }

/-- JavaScript `v || dflt` on an optional string (empty string is falsy). -/
def jsOr (v : Option String) (dflt : String) : String :=
  match v with
  | some str => if str == "" then dflt else str
  | none => dflt

/-- `createCategory` from the category routes: rejects when the
authenticated user already owns a category with the same name
(`findFirst({ where: { name, userId } })`), else creates the category
with `color: color || '#3B82F6'` and the authenticated user as owner. -/
def createCategory (u : String) (name : String) (color : Option String)
    (newId : String) (now : Int) (s : Store) : Resp CategoryOut × Store :=
  match s.categories.find? (fun c => c.name == name && c.userId == u) with
  | some _ => (.err 400 "Category with this name already exists", s)
  | none =>
    let c : Category :=
      { id := newId, name := name, color := jsOr color "#3B82F6"
        userId := u, createdAt := now }
    (.ok ⟨c, categoryTaskCount s c.id⟩, { s with categories := s.categories ++ [c] })

/-- The body of `PUT /api/categories/:id`. -/
structure UpdateCategoryBody where
  name : Option String := none
  color : Option String := none
deriving DecidableEq, Repr

/-- The spread-built `data` object of `prisma.category.update`:
`name` and `color` applied only when truthy. -/
def applyCategoryUpdate (b : UpdateCategoryBody) (c : Category) : Category :=
  { c with
    name := match b.name with
            | some n => if n == "" then c.name else n
            | none => c.name
    color := match b.color with
             | some col => if col == "" then c.color else col
             | none => c.color }

/-- `updateCategory` from the category routes: owner-scoped existence
check (404); when a truthy new name differs from the current one, a
conflict check `findFirst({ where: { name, userId, id: { not: id } } })`
(400 on a hit); then `prisma.category.update({ where: { id } })`. -/
def updateCategory (u id : String) (b : UpdateCategoryBody) (s : Store) :
    Resp CategoryOut × Store :=
  match s.categories.find? (fun c => c.id == id && c.userId == u) with
  | none => (.err 404 "Category not found", s)
  | some ex =>
    let conflict : Bool :=
      match b.name with
      | some n =>
        if n == "" then false
        else if n == ex.name then false
        else (s.categories.find? (fun c => c.name == n && c.userId == u && !(c.id == id))).isSome
      | none => false
    if conflict then (.err 400 "Category with this name already exists", s)
    else
      match s.categories.find? (fun c => c.id == id) with
      | none => (.err 500 "Internal server error", s)
      | some c0 =>
        let c' := applyCategoryUpdate b c0
        (.ok ⟨c', categoryTaskCount s c'.id⟩,
         { s with categories :=
            s.categories.map (fun c => if c.id == id then applyCategoryUpdate b c else c) })

/-- `deleteCategory` from the category routes: owner-scoped existence
check (404); then the associated-task count
`prisma.task.count({ where: { categoryId: id } })` — note this count is
keyed on the category id only — which blocks deletion when positive
(400); else `prisma.category.delete({ where: { id } })`. -/
def deleteCategory (u id : String) (s : Store) : Resp Unit × Store :=
  match s.categories.find? (fun c => c.id == id && c.userId == u) with
  | none => (.err 404 "Category not found", s)
  | some _ =>
    let taskCount := s.tasks.countP (fun t => t.categoryId == some id)
    if taskCount > 0 then
      (.err 400 (s!"Cannot delete category. It has {taskCount} associated tasks. Please move or delete the tasks first."), s)
    else
      (.ok (), { s with categories := s.categories.filter (fun c => !(c.id == id)) })

/-- Well-formed store: ids are primary keys, hence distinct. -/
def Store.wf (s : Store) : Prop :=
  (s.tasks.map Task.id).Nodup ∧ (s.categories.map Category.id).Nodup

/-- The data-model invariant that a task's category reference points to a
category owned by the same user (the reference is only ever set after the
ownership check in `createTask` / `updateTask`). -/
def Store.ownedRefs (s : Store) : Prop :=
  ∀ t ∈ s.tasks, ∀ c ∈ s.categories, t.categoryId = some c.id →
    c.userId = t.userId

/-- Referential integrity of the `categoryId` foreign key, guaranteed by
the schema (`category Category? @relation(fields: [categoryId], ...)`). -/
def Store.fkOk (s : Store) : Prop :=
  ∀ t ∈ s.tasks, t.categoryId = none ∨
    ∃ c ∈ s.categories, t.categoryId = some c.id

/-- The part of the store owned by one user. -/
def restrict (u : String) (s : Store) : Store :=
  { tasks := s.tasks.filter (fun t => t.userId == u)
    categories := s.categories.filter (fun c => c.userId == u) }

/-- A configuration with both secrets set and default TTLs. -/
def cfgDemo : Config :=
  { jwtSecret := some "access-secret", jwtRefreshSecret := some "refresh-secret"
    jwtExpire := none, jwtRefreshExpire := none }

/-- A past-due pending task of user `A`, used in concrete instances. -/
def overdueDemoTask : Task :=
  { id := "t-od", title := "overdue", description := none, dueDate := some 0
    status := .PENDING, userId := "A", categoryId := none, createdAt := 0 }

/-- A category named Work owned by user `A`. -/
def catWork : Category :=
  { id := "c1", name := "Work", color := "#3B82F6", userId := "A", createdAt := 0 }

/-- A task of user `A` in category `c1`. -/
def taskInWork : Task :=
  { id := "t1", title := "Report", description := none, dueDate := none
    status := .PENDING, userId := "A", categoryId := some "c1", createdAt := 1 }

/-- A store where `A`'s category `c1` has one associated task. -/
def storeWork : Store := { tasks := [taskInWork], categories := [catWork] }

/-- A store where `A`'s category `c1` has no associated task. -/
def storeWorkEmpty : Store := { tasks := [], categories := [catWork] }

/-- The i-th seeded demo task: createdAt = i, mixed statuses. -/
def mkSeqTask (i : Nat) : Task :=
  { id := toString i, title := "task", description := none, dueDate := none
    status := if i % 3 == 0 then .COMPLETED
              else if i % 3 == 1 then .PENDING else .IN_PROGRESS
    userId := "A", categoryId := none, createdAt := (i : Int) }

/-- 25 tasks of one user with mixed statuses, creation times 1..25. -/
def store25 : Store :=
  { tasks := (List.range 25).map (fun i => mkSeqTask (i + 1)), categories := [] }

/-- A task of user `B` whose `categoryId` points at `A`'s category `c1` —
a store state the schema admits (the foreign key does not constrain
owners) but that the API's own writes never produce. -/
def taskB : Task :=
  { id := "tB", title := "sneak", description := none, dueDate := none
    status := .PENDING, userId := "B", categoryId := some "c1", createdAt := 2 }

/-- A store where a foreign-owned task references `A`'s category. -/
def sBad : Store := { tasks := [taskB], categories := [catWork] }

/-! ## Theorems -/

/-- Inserting into a list grows its length by one. -/
theorem insertSorted_length {α : Type} (le : α → α → Bool) (t : α) (l : List α) :
    (insertSorted le t l).length = l.length + 1 := by
  induction l with
  | nil => rfl
  | cons x xs ih =>
    rw [insertSorted]
    by_cases h : le t x
    · simp [h]
    · simp [h, ih]

/-- Sorting preserves length. -/
theorem sortLe_length {α : Type} (le : α → α → Bool) (l : List α) :
    (sortLe le l).length = l.length := by
  induction l with
  | nil => rfl
  | cons x xs ih => rw [sortLe, insertSorted_length, ih, List.length_cons]

/-- Membership through insertion. -/
theorem mem_insertSorted {α : Type} (le : α → α → Bool) (t a : α) (l : List α) :
    a ∈ insertSorted le t l ↔ a = t ∨ a ∈ l := by
  induction l with
  | nil => simp [insertSorted]
  | cons x xs ih =>
    rw [insertSorted]
    by_cases h : le t x
    · simp [h]
    · simp [h, ih]
      tauto

/-- Sorting preserves membership. -/
theorem mem_sortLe {α : Type} (le : α → α → Bool) (a : α) (l : List α) :
    a ∈ sortLe le l ↔ a ∈ l := by
  induction l with
  | nil => simp [sortLe]
  | cons x xs ih =>
    rw [sortLe, mem_insertSorted, ih]
    simp

/-- Pre-filtering by a weaker predicate does not change a filter. -/
theorem filter_filter_of_imp {α : Type} (p q : α → Bool) (l : List α)
    (h : ∀ x ∈ l, p x = true → q x = true) :
    (l.filter q).filter p = l.filter p := by
  induction l with
  | nil => rfl
  | cons x xs ih =>
    have ih' := ih (fun y hy hp => h y (List.mem_cons_of_mem _ hy) hp)
    by_cases hq : q x = true
    · by_cases hp : p x = true <;> simp [List.filter_cons, hq, hp, ih']
    · have hp : p x = false := by
        rcases Bool.eq_false_or_eq_true (p x) with h' | h'
        · exact absurd (h x (List.mem_cons_self x xs) h') hq
        · exact h'
      simp [List.filter_cons, hq, hp, ih']

/-- Pre-filtering by a weaker predicate does not change a first-match
lookup. -/
theorem find?_filter_of_imp {α : Type} (p q : α → Bool) (l : List α)
    (h : ∀ x ∈ l, p x = true → q x = true) :
    (l.filter q).find? p = l.find? p := by
  induction l with
  | nil => rfl
  | cons x xs ih =>
    have ih' := ih (fun y hy hp => h y (List.mem_cons_of_mem _ hy) hp)
    by_cases hq : q x = true
    · by_cases hp : p x = true <;> simp [List.filter_cons, List.find?_cons, hq, hp, ih']
    · have hp : p x = false := by
        rcases Bool.eq_false_or_eq_true (p x) with h' | h'
        · exact absurd (h x (List.mem_cons_self x xs) h') hq
        · exact h'
      simp [List.filter_cons, List.find?_cons, hq, hp, ih']

/-- Pre-filtering by a weaker predicate does not change a count. -/
theorem countP_filter_of_imp {α : Type} (p q : α → Bool) (l : List α)
    (h : ∀ x ∈ l, p x = true → q x = true) :
    (l.filter q).countP p = l.countP p := by
  rw [List.countP_eq_length_filter, List.countP_eq_length_filter,
    filter_filter_of_imp p q l h]

/-- A map that fixes every element satisfying `p` and preserves `p`
does not change the `p`-filter. -/
theorem filter_map_update {α : Type} (p : α → Bool) (f : α → α) (l : List α)
    (h1 : ∀ x ∈ l, p x = true → f x = x)
    (h2 : ∀ x ∈ l, p (f x) = p x) :
    (l.map f).filter p = l.filter p := by
  induction l with
  | nil => rfl
  | cons x xs ih =>
    have ih' := ih (fun y hy => h1 y (List.mem_cons_of_mem _ hy))
      (fun y hy => h2 y (List.mem_cons_of_mem _ hy))
    by_cases hp : p x = true
    · have hfx := h1 x (List.mem_cons_self x xs) hp
      have hpf : p (f x) = true := by rw [h2 x (List.mem_cons_self x xs)]; exact hp
      simp [List.filter_cons, hp, hpf, hfx, ih']
    · have hp' : p x = false := by
        rcases Bool.eq_false_or_eq_true (p x) with h' | h'
        · exact absurd h' hp
        · exact h'
      have hpf : p (f x) = false := by rw [h2 x (List.mem_cons_self x xs)]; exact hp'
      simp [List.filter_cons, hp', hpf, ih']

/-- The `getTasks` where clause always carries the owner predicate. -/
theorem taskWhere_imp_owner (u : String) (q : TaskQuery) (t : Task)
    (h : taskWhere u q t = true) : (t.userId == u) = true := by
  rw [taskWhere, Bool.and_eq_true, Bool.and_eq_true, Bool.and_eq_true] at h
  exact h.1.1.1

/-- Resolving a task's included category is unaffected by restricting the
category table to the owner, provided every category the reference can
name is owned by the owner. -/
theorem categoryInfoOf_filter (cats : List Category) (u : String)
    (cid? : Option String)
    (h : ∀ cid, cid? = some cid → ∀ c ∈ cats, c.id = cid → (c.userId == u) = true) :
    categoryInfoOf (cats.filter (fun c => c.userId == u)) cid? =
      categoryInfoOf cats cid? := by
  cases cid? with
  | none => rfl
  | some cid =>
    simp only [categoryInfoOf]
    rw [find?_filter_of_imp]
    intro c hc hp
    exact h cid rfl c hc (by simpa using hp)

/-- The stats aggregation reads only the owner's records. -/
theorem getTaskStats_restrict (u : String) (now : Int) (s : Store) :
    getTaskStats u now (restrict u s) = getTaskStats u now s := by
  simp only [getTaskStats, restrict]
  congr 1
  · exact countP_filter_of_imp _ _ _ (fun t _ h => h)
  · exact countP_filter_of_imp _ _ _ (fun t _ h => ((Bool.and_eq_true _ _).mp h).1)
  · exact countP_filter_of_imp _ _ _ (fun t _ h => ((Bool.and_eq_true _ _).mp h).1)
  · exact countP_filter_of_imp _ _ _ (fun t _ h => ((Bool.and_eq_true _ _).mp h).1)
  · refine countP_filter_of_imp _ _ _ (fun t _ h => ?_)
    rw [overdueWhere, Bool.and_eq_true, Bool.and_eq_true] at h
    exact h.1.1

/-- The single-task read reads only the owner's records. -/
theorem getTask_restrict (u id : String) (s : Store) (href : s.ownedRefs) :
    getTask u id (restrict u s) = getTask u id s := by
  simp only [getTask, restrict]
  rw [find?_filter_of_imp _ _ _ (fun t _ h => ((Bool.and_eq_true _ _).mp h).2)]
  cases hres : s.tasks.find? (fun t => t.id == id && t.userId == u) with
  | none => rfl
  | some t =>
    have hmem := List.mem_of_find?_eq_some hres
    have hpt := List.find?_some hres
    rw [Bool.and_eq_true, beq_iff_eq, beq_iff_eq] at hpt
    have hinfo : categoryInfoOf (s.categories.filter (fun c => c.userId == u))
        t.categoryId = categoryInfoOf s.categories t.categoryId := by
      apply categoryInfoOf_filter
      intro cid hcid c hc hcid'
      have heq := href t hmem c hc (by rw [hcid, hcid'])
      rw [beq_iff_eq, heq, hpt.2]
    simp only [hinfo]

/-- The list-tasks read reads only the owner's records. -/
theorem getTasks_restrict (u : String) (q : TaskQuery) (s : Store)
    (href : s.ownedRefs) :
    getTasks u q (restrict u s) = getTasks u q s := by
  simp only [getTasks, restrict]
  rw [filter_filter_of_imp _ _ _ (fun t _ h => taskWhere_imp_owner u q t h),
    countP_filter_of_imp _ _ _ (fun t _ h => taskWhere_imp_owner u q t h)]
  by_cases hc : (knownSortField (taskOrderBy q).field &&
      ((taskOrderBy q).direction == "asc" || (taskOrderBy q).direction == "desc")) = true
  · have hok : persistenceFindTasks (taskOrderBy q) (s.tasks.filter (taskWhere u q)) =
        .ok (sortLe (taskLe (taskOrderBy q)) (s.tasks.filter (taskWhere u q))) := by
      rw [persistenceFindTasks, if_pos hc]
    simp only [hok]
    have hmap : ∀ t ∈ ((sortLe (taskLe (taskOrderBy q))
        (s.tasks.filter (taskWhere u q))).drop ((q.page - 1) * q.limit)).take q.limit,
        (⟨t, categoryInfoOf (s.categories.filter (fun c => c.userId == u))
            t.categoryId⟩ : TaskOut) =
          ⟨t, categoryInfoOf s.categories t.categoryId⟩ := by
      intro t ht
      have ht1 := List.mem_of_mem_drop (List.mem_of_mem_take ht)
      have ht2 := (mem_sortLe _ _ _).mp ht1
      have ht3 := List.mem_filter.mp ht2
      have hu : t.userId = u := by
        simpa using taskWhere_imp_owner u q t ht3.2
      congr 1
      apply categoryInfoOf_filter
      intro cid hcid c hcmem hcid'
      have heq := href t ht3.1 c hcmem (by rw [hcid, hcid'])
      rw [beq_iff_eq, heq, hu]
    rw [List.map_congr_left hmap]
  · have herr : persistenceFindTasks (taskOrderBy q)
        (s.tasks.filter (taskWhere u q)) = .error "Unknown argument in orderBy" := by
      rw [persistenceFindTasks, if_neg hc]
    simp only [herr]

/-- The list-categories read reads only the owner's records. -/
theorem getCategories_restrict (u : String) (s : Store) (href : s.ownedRefs) :
    getCategories u (restrict u s) = getCategories u s := by
  simp only [getCategories, restrict, categoryTaskCount]
  rw [filter_filter_of_imp _ _ _ (fun c _ h => h)]
  apply List.map_congr_left
  intro c hc
  have hc1 := (mem_sortLe _ _ _).mp hc
  have hc2 := List.mem_filter.mp hc1
  have hcu : c.userId = u := by simpa using hc2.2
  congr 1
  apply countP_filter_of_imp
  intro t ht hp
  rw [beq_iff_eq] at hp
  have heq := href t ht c hc2.1 hp
  rw [beq_iff_eq, ← heq, hcu]

/-- The single-category read reads only the owner's records. -/
theorem getCategory_restrict (u id : String) (s : Store) (href : s.ownedRefs) :
    getCategory u id (restrict u s) = getCategory u id s := by
  simp only [getCategory, restrict]
  rw [find?_filter_of_imp _ _ _ (fun c _ h => ((Bool.and_eq_true _ _).mp h).2)]
  cases hres : s.categories.find? (fun c => c.id == id && c.userId == u) with
  | none => rfl
  | some c =>
    have hmem := List.mem_of_find?_eq_some hres
    have hpc := List.find?_some hres
    rw [Bool.and_eq_true, beq_iff_eq, beq_iff_eq] at hpc
    have hrel : (s.tasks.filter (fun t => t.userId == u)).filter
        (fun t => t.categoryId == some id) =
        s.tasks.filter (fun t => t.categoryId == some id) := by
      apply filter_filter_of_imp
      intro t ht hp
      rw [beq_iff_eq] at hp
      have heq := href t ht c hmem (by rw [hp, hpc.1])
      rw [beq_iff_eq, ← heq, hpc.2]
    simp only [hrel]

/-- Task updates never change the owner column. -/
theorem applyTaskUpdate_userId (b : UpdateTaskBody) (t : Task) :
    (applyTaskUpdate b t).userId = t.userId := rfl

/-- Creating a task touches only the owner's records: the response does not
depend on foreign records, the added record is owned by the authenticated
user, and the category table is untouched. -/
theorem createTask_scoped (u : String) (b : CreateTaskBody) (nid : String)
    (now : Int) (s : Store) (hwf : s.wf) :
    (createTask u b nid now (restrict u s)).1 = (createTask u b nid now s).1 ∧
    (createTask u b nid now s).2.tasks.filter (fun t => !(t.userId == u)) =
      s.tasks.filter (fun t => !(t.userId == u)) ∧
    (createTask u b nid now s).2.categories = s.categories := by
  rcases hb : b.categoryId with _ | cid
  · refine ⟨?_, ?_, ?_⟩ <;>
      simp [createTask, hb, createTaskWrite, restrict, List.filter_append, categoryInfoOf]
  · have hfind := find?_filter_of_imp (fun c => c.id == cid && c.userId == u)
      (fun c => c.userId == u) s.categories
      (fun c _ h => ((Bool.and_eq_true _ _).mp h).2)
    cases hres : s.categories.find? (fun c => c.id == cid && c.userId == u) with
    | none =>
      refine ⟨?_, ?_, ?_⟩ <;> simp [createTask, hb, restrict, hfind, hres]
    | some c =>
      have hmem := List.mem_of_find?_eq_some hres
      have hpc := List.find?_some hres
      rw [Bool.and_eq_true, beq_iff_eq, beq_iff_eq] at hpc
      have hinfo : categoryInfoOf (s.categories.filter (fun c => c.userId == u))
          (some cid) = categoryInfoOf s.categories (some cid) := by
        apply categoryInfoOf_filter
        intro cid' hcid' c' hc' hid'
        cases hcid'
        have : c' = c := List.inj_on_of_nodup_map hwf.2 hc' hmem (by rw [hid', hpc.1])
        rw [beq_iff_eq, this, hpc.2]
      refine ⟨?_, ?_, ?_⟩ <;>
        simp [createTask, hb, restrict, hfind, hres, createTaskWrite,
          List.filter_append, hinfo]

/-- Deleting a task touches only the owner's records. -/
theorem deleteTask_scoped (u id : String) (s : Store) (hwf : s.wf) :
    (deleteTask u id (restrict u s)).1 = (deleteTask u id s).1 ∧
    (deleteTask u id s).2.tasks.filter (fun t => !(t.userId == u)) =
      s.tasks.filter (fun t => !(t.userId == u)) ∧
    (deleteTask u id s).2.categories = s.categories := by
  have hfind := find?_filter_of_imp (fun t => t.id == id && t.userId == u)
    (fun t => t.userId == u) s.tasks (fun t _ h => ((Bool.and_eq_true _ _).mp h).2)
  cases hres : s.tasks.find? (fun t => t.id == id && t.userId == u) with
  | none =>
    refine ⟨?_, ?_, ?_⟩ <;> simp [deleteTask, restrict, hfind, hres]
  | some ex =>
    have hexmem := List.mem_of_find?_eq_some hres
    have hexp := List.find?_some hres
    rw [Bool.and_eq_true, beq_iff_eq, beq_iff_eq] at hexp
    refine ⟨by simp [deleteTask, restrict, hfind, hres], ?_,
      by simp [deleteTask, restrict, hfind, hres]⟩
    have h2 : (deleteTask u id s).2.tasks =
        s.tasks.filter (fun t => !(t.id == id)) := by
      simp [deleteTask, hres]
    rw [h2]
    apply filter_filter_of_imp
    intro t ht hp
    rw [Bool.not_eq_true', beq_eq_false_iff_ne] at hp ⊢
    intro hid
    have : t = ex := List.inj_on_of_nodup_map hwf.1 ht hexmem (by rw [hid, hexp.1])
    rw [this, hexp.2] at hp
    exact hp rfl

/-- Updating a task touches only the owner's records. -/
theorem updateTask_scoped (u id : String) (b : UpdateTaskBody) (s : Store)
    (hwf : s.wf) (href : s.ownedRefs) :
    (updateTask u id b (restrict u s)).1 = (updateTask u id b s).1 ∧
    (updateTask u id b s).2.tasks.filter (fun t => !(t.userId == u)) =
      s.tasks.filter (fun t => !(t.userId == u)) ∧
    (updateTask u id b s).2.categories = s.categories := by
  have hfind := find?_filter_of_imp (fun t => t.id == id && t.userId == u)
    (fun t => t.userId == u) s.tasks (fun t _ h => ((Bool.and_eq_true _ _).mp h).2)
  cases hres : s.tasks.find? (fun t => t.id == id && t.userId == u) with
  | none =>
    refine ⟨?_, ?_, ?_⟩ <;> simp [updateTask, restrict, hfind, hres]
  | some ex =>
    have hexmem := List.mem_of_find?_eq_some hres
    have hexp := List.find?_some hres
    rw [Bool.and_eq_true, beq_iff_eq, beq_iff_eq] at hexp
    have hid_eq : ∀ t ∈ s.tasks, t.id = id → t = ex :=
      fun t ht hid => List.inj_on_of_nodup_map hwf.1 ht hexmem (by rw [hid, hexp.1])
    have hfid : s.tasks.find? (fun t => t.id == id) = some ex := by
      cases hzz : s.tasks.find? (fun t => t.id == id) with
      | none =>
        rw [List.find?_eq_none] at hzz
        exact absurd (by simp [hexp.1]) (hzz ex hexmem)
      | some t0 =>
        have hm := List.mem_of_find?_eq_some hzz
        have hp := List.find?_some hzz
        rw [beq_iff_eq] at hp
        rw [hid_eq t0 hm hp]
    have hfid' : (s.tasks.filter (fun t => t.userId == u)).find?
        (fun t => t.id == id) = some ex := by
      rw [find?_filter_of_imp]
      · exact hfid
      · intro t ht hp
        rw [beq_iff_eq] at hp
        rw [hid_eq t ht hp, hexp.2]
        exact beq_self_eq_true u
    have hstore2 : (updateTask u id b s).2.tasks.filter (fun t => !(t.userId == u)) =
        s.tasks.filter (fun t => !(t.userId == u)) ∧
        (updateTask u id b s).2.categories = s.categories := by
      rw [updateTask, hres]
      by_cases hcat : (match b.categoryId with
          | some (some cid) =>
            (s.categories.find? (fun c => c.id == cid && c.userId == u)).isSome
          | _ => true) = true
      · rw [if_pos hcat, hfid]
        refine ⟨?_, rfl⟩
        apply filter_map_update
        · intro t ht hp
          rw [Bool.not_eq_true', beq_eq_false_iff_ne] at hp
          have hne : (t.id == id) = false := by
            rw [beq_eq_false_iff_ne]
            intro hid
            exact hp (by rw [hid_eq t ht hid, hexp.2])
          rw [hne]
          simp
        · intro t _
          by_cases hid : (t.id == id) = true <;>
            simp [hid, applyTaskUpdate_userId]
      · rw [if_neg hcat]
        exact ⟨rfl, rfl⟩
    refine ⟨?_, hstore2.1, hstore2.2⟩
    rw [updateTask, updateTask]
    simp only [restrict]
    rw [hfind, hres]
    have hcat_eq : (match b.categoryId with
        | some (some cid) =>
          ((s.categories.filter (fun c : Category => c.userId == u)).find?
            (fun c : Category => c.id == cid && c.userId == u)).isSome
        | _ => true) = (match b.categoryId with
        | some (some cid) =>
          (s.categories.find? (fun c : Category => c.id == cid && c.userId == u)).isSome
        | _ => true) := by
      rcases b.categoryId with _ | v
      · rfl
      · rcases v with _ | cid
        · rfl
        · have hcomm := find?_filter_of_imp
            (fun c : Category => c.id == cid && c.userId == u)
            (fun c : Category => c.userId == u) s.categories
            (fun c _ h => ((Bool.and_eq_true _ _).mp h).2)
          simp only [hcomm]
    rw [hcat_eq]
    by_cases hcat : (match b.categoryId with
        | some (some cid) =>
          (s.categories.find? (fun c => c.id == cid && c.userId == u)).isSome
        | _ => true) = true
    · rw [if_pos hcat, if_pos hcat, hfid, hfid']
      have hinfo : categoryInfoOf (s.categories.filter (fun c => c.userId == u))
          (applyTaskUpdate b ex).categoryId =
          categoryInfoOf s.categories (applyTaskUpdate b ex).categoryId := by
        apply categoryInfoOf_filter
        intro cid hcid c hc hcid'
        rcases hbc : b.categoryId with _ | v
        · have hcid2 : ex.categoryId = some cid := by
            rw [applyTaskUpdate, hbc] at hcid
            exact hcid
          have heq := href ex hexmem c hc (by rw [hcid2, hcid'])
          rw [beq_iff_eq, heq, hexp.2]
        · have hv : v = some cid := by
            rw [applyTaskUpdate, hbc] at hcid
            exact hcid
          rw [hbc, hv] at hcat
          simp only [] at hcat
          obtain ⟨c0, hc0⟩ := Option.isSome_iff_exists.mp hcat
          have hm0 := List.mem_of_find?_eq_some hc0
          have hp0 := List.find?_some hc0
          rw [Bool.and_eq_true, beq_iff_eq, beq_iff_eq] at hp0
          have : c = c0 := List.inj_on_of_nodup_map hwf.2 hc hm0
            (by rw [hcid', hp0.1])
          rw [beq_iff_eq, this, hp0.2]
      simp only [hinfo]
    · rw [if_neg hcat, if_neg hcat]

/-- Category updates never change the owner column. -/
theorem applyCategoryUpdate_userId (b : UpdateCategoryBody) (c : Category) :
    (applyCategoryUpdate b c).userId = c.userId := rfl

/-- Category updates never change the id column. -/
theorem applyCategoryUpdate_id (b : UpdateCategoryBody) (c : Category) :
    (applyCategoryUpdate b c).id = c.id := rfl

/-- Creating a category touches only the owner's records (given referential
integrity and freshness of the generated id). -/
theorem createCategory_scoped (u n : String) (col : Option String) (nid : String)
    (now : Int) (s : Store) (hfk : s.fkOk)
    (hfresh : ∀ c ∈ s.categories, c.id ≠ nid) :
    (createCategory u n col nid now (restrict u s)).1 =
      (createCategory u n col nid now s).1 ∧
    (createCategory u n col nid now s).2.categories.filter
        (fun c => !(c.userId == u)) =
      s.categories.filter (fun c => !(c.userId == u)) ∧
    (createCategory u n col nid now s).2.tasks = s.tasks := by
  have hfind := find?_filter_of_imp (fun c => c.name == n && c.userId == u)
    (fun c => c.userId == u) s.categories
    (fun c _ h => ((Bool.and_eq_true _ _).mp h).2)
  cases hres : s.categories.find? (fun c => c.name == n && c.userId == u) with
  | some c =>
    refine ⟨?_, ?_, ?_⟩ <;> simp [createCategory, restrict, hfind, hres]
  | none =>
    have hcnt : (s.tasks.filter (fun t => t.userId == u)).countP
        (fun t => t.categoryId == some nid) =
        s.tasks.countP (fun t => t.categoryId == some nid) := by
      apply countP_filter_of_imp
      intro t ht hp
      rw [beq_iff_eq] at hp
      rcases hfk t ht with h0 | ⟨c, hc, heq⟩
      · rw [h0] at hp
        cases hp
      · rw [heq] at hp
        injection hp with hp
        exact absurd hp (hfresh c hc)
    refine ⟨?_, ?_, ?_⟩ <;>
      simp [createCategory, restrict, hfind, hres, categoryTaskCount,
        List.filter_append, hcnt]

/-- Updating a category touches only the owner's records. -/
theorem updateCategory_scoped (u id : String) (b : UpdateCategoryBody) (s : Store)
    (hwf : s.wf) (href : s.ownedRefs) :
    (updateCategory u id b (restrict u s)).1 = (updateCategory u id b s).1 ∧
    (updateCategory u id b s).2.categories.filter (fun c => !(c.userId == u)) =
      s.categories.filter (fun c => !(c.userId == u)) ∧
    (updateCategory u id b s).2.tasks = s.tasks := by
  have hfind := find?_filter_of_imp (fun c => c.id == id && c.userId == u)
    (fun c => c.userId == u) s.categories
    (fun c _ h => ((Bool.and_eq_true _ _).mp h).2)
  cases hres : s.categories.find? (fun c => c.id == id && c.userId == u) with
  | none =>
    refine ⟨?_, ?_, ?_⟩ <;> simp [updateCategory, restrict, hfind, hres]
  | some ex =>
    have hexmem := List.mem_of_find?_eq_some hres
    have hexp := List.find?_some hres
    rw [Bool.and_eq_true, beq_iff_eq, beq_iff_eq] at hexp
    have hid_eq : ∀ c ∈ s.categories, c.id = id → c = ex :=
      fun c hc hid => List.inj_on_of_nodup_map hwf.2 hc hexmem (by rw [hid, hexp.1])
    have hfid : s.categories.find? (fun c => c.id == id) = some ex := by
      cases hzz : s.categories.find? (fun c => c.id == id) with
      | none =>
        rw [List.find?_eq_none] at hzz
        exact absurd (by simp [hexp.1]) (hzz ex hexmem)
      | some c0 =>
        have hm := List.mem_of_find?_eq_some hzz
        have hp := List.find?_some hzz
        rw [beq_iff_eq] at hp
        rw [hid_eq c0 hm hp]
    have hfid' : (s.categories.filter (fun c => c.userId == u)).find?
        (fun c => c.id == id) = some ex := by
      rw [find?_filter_of_imp]
      · exact hfid
      · intro c hc hp
        rw [beq_iff_eq] at hp
        rw [hid_eq c hc hp, hexp.2]
        exact beq_self_eq_true u
    have hconf_eq : (match b.name with
        | some nn =>
          if nn == "" then false
          else if nn == ex.name then false
          else ((s.categories.filter (fun c : Category => c.userId == u)).find?
            (fun c : Category => c.name == nn && c.userId == u && !(c.id == id))).isSome
        | none => false) = (match b.name with
        | some nn =>
          if nn == "" then false
          else if nn == ex.name then false
          else (s.categories.find?
            (fun c : Category => c.name == nn && c.userId == u && !(c.id == id))).isSome
        | none => false) := by
      rcases b.name with _ | nn
      · rfl
      · have hcomm := find?_filter_of_imp
          (fun c : Category => c.name == nn && c.userId == u && !(c.id == id))
          (fun c : Category => c.userId == u) s.categories
          (fun c _ h => (((Bool.and_eq_true _ _).mp ((Bool.and_eq_true _ _).mp h).1)).2)
        simp only [hcomm]
    have hcnt : ∀ cid' : String, (∀ t ∈ s.tasks, t.categoryId = some cid' →
        (t.userId == u) = true) →
        (s.tasks.filter (fun t => t.userId == u)).countP
          (fun t => t.categoryId == some cid') =
        s.tasks.countP (fun t => t.categoryId == some cid') := by
      intro cid' h
      apply countP_filter_of_imp
      intro t ht hp
      rw [beq_iff_eq] at hp
      exact h t ht hp
    have howner : ∀ t ∈ s.tasks, t.categoryId = some (applyCategoryUpdate b ex).id →
        (t.userId == u) = true := by
      intro t ht hp
      rw [applyCategoryUpdate_id] at hp
      have heq := href t ht ex hexmem hp
      rw [beq_iff_eq, ← heq, hexp.2]
    constructor
    · rw [updateCategory, updateCategory]
      simp only [restrict]
      rw [hfind, hres]
      simp only [hconf_eq]
      by_cases hcf : (match b.name with
          | some nn =>
            if nn == "" then false
            else if nn == ex.name then false
            else (s.categories.find?
              (fun c : Category => c.name == nn && c.userId == u && !(c.id == id))).isSome
          | none => false) = true
      · rw [if_pos hcf, if_pos hcf]
      · rw [if_neg hcf, if_neg hcf, hfid, hfid']
        have hc := hcnt (applyCategoryUpdate b ex).id (howner)
        simp only [categoryTaskCount, restrict, hc]
    · rw [updateCategory]
      simp only [hres]
      by_cases hcf : (match b.name with
          | some nn =>
            if nn == "" then false
            else if nn == ex.name then false
            else (s.categories.find?
              (fun c : Category => c.name == nn && c.userId == u && !(c.id == id))).isSome
          | none => false) = true
      · rw [if_pos hcf]
        exact ⟨rfl, rfl⟩
      · rw [if_neg hcf, hfid]
        refine ⟨?_, rfl⟩
        apply filter_map_update
        · intro c hc hp
          rw [Bool.not_eq_true', beq_eq_false_iff_ne] at hp
          have hne : (c.id == id) = false := by
            rw [beq_eq_false_iff_ne]
            intro hid
            exact hp (by rw [hid_eq c hc hid, hexp.2])
          rw [hne]
          simp
        · intro c _
          by_cases hid : (c.id == id) = true <;>
            simp [hid, applyCategoryUpdate_userId]

/-- Deleting a category touches only the owner's records — given the
data-model invariant that category references stay within one owner; the
blocking task count itself is keyed on the category id alone. -/
theorem deleteCategory_scoped (u id : String) (s : Store)
    (hwf : s.wf) (href : s.ownedRefs) :
    (deleteCategory u id (restrict u s)).1 = (deleteCategory u id s).1 ∧
    (deleteCategory u id s).2.categories.filter (fun c => !(c.userId == u)) =
      s.categories.filter (fun c => !(c.userId == u)) ∧
    (deleteCategory u id s).2.tasks = s.tasks := by
  have hfind := find?_filter_of_imp (fun c => c.id == id && c.userId == u)
    (fun c => c.userId == u) s.categories
    (fun c _ h => ((Bool.and_eq_true _ _).mp h).2)
  cases hres : s.categories.find? (fun c => c.id == id && c.userId == u) with
  | none =>
    refine ⟨?_, ?_, ?_⟩ <;> simp [deleteCategory, restrict, hfind, hres]
  | some ex =>
    have hexmem := List.mem_of_find?_eq_some hres
    have hexp := List.find?_some hres
    rw [Bool.and_eq_true, beq_iff_eq, beq_iff_eq] at hexp
    have hcnt : (s.tasks.filter (fun t => t.userId == u)).countP
        (fun t => t.categoryId == some id) =
        s.tasks.countP (fun t => t.categoryId == some id) := by
      apply countP_filter_of_imp
      intro t ht hp
      rw [beq_iff_eq] at hp
      have heq := href t ht ex hexmem (by rw [hp, hexp.1])
      rw [beq_iff_eq, ← heq, hexp.2]
    constructor
    · rw [deleteCategory, deleteCategory]
      simp only [restrict]
      rw [hfind, hres]
      simp only [hcnt]
      by_cases hpos : s.tasks.countP (fun t => t.categoryId == some id) > 0
      · rw [if_pos hpos, if_pos hpos]
      · rw [if_neg hpos, if_neg hpos]
    · rw [deleteCategory]
      simp only [hres]
      by_cases hpos : s.tasks.countP (fun t => t.categoryId == some id) > 0
      · rw [if_pos hpos]
        exact ⟨rfl, rfl⟩
      · rw [if_neg hpos]
        refine ⟨?_, rfl⟩
        apply filter_filter_of_imp
        intro c hc hp
        rw [Bool.not_eq_true', beq_eq_false_iff_ne] at hp ⊢
        intro hid
        have : c = ex :=
          List.inj_on_of_nodup_map hwf.2 hc hexmem (by rw [hid, hexp.1])
        rw [this, hexp.2] at hp
        exact hp rfl

/-- `jsCeil` is at least the quotient scaled back: `t ≤ l * jsCeil t l`. -/
theorem le_mul_jsCeil (t l : Nat) (hl : 1 ≤ l) : t ≤ l * jsCeil t l := by
  have hdm : l * (t / l) + t % l = t := Nat.div_add_mod t l
  have hlt : t % l < l := Nat.mod_lt _ (by omega)
  by_cases hr : t % l = 0
  · have h1 : jsCeil t l = t / l := by simp [jsCeil, hr]
    rw [h1]
    calc t = l * (t / l) + t % l := hdm.symm
      _ = l * (t / l) := by rw [hr, Nat.add_zero]
      _ ≤ l * (t / l) := le_refl _
  · have h1 : jsCeil t l = t / l + 1 := by simp [jsCeil, hr]
    rw [h1]
    calc t = l * (t / l) + t % l := hdm.symm
      _ ≤ l * (t / l) + l := Nat.add_le_add_left (le_of_lt hlt) _
      _ = l * (t / l + 1) := by ring
/-- `jsCeil` is the least such bound. -/
theorem jsCeil_le_of_le_mul (t l c : Nat) (hl : 1 ≤ l) (hc : t ≤ l * c) :
    jsCeil t l ≤ c := by
  by_cases hr : t % l = 0
  · have h1 : jsCeil t l = t / l := by simp [jsCeil, hr]
    rw [h1]
    have h2 : t / l ≤ (l * c) / l := Nat.div_le_div_right hc
    rwa [Nat.mul_div_cancel_left c (by omega : 0 < l)] at h2
  · have h1 : jsCeil t l = t / l + 1 := by simp [jsCeil, hr]
    rw [h1]
    have h2 : t / l < c := by
      rcases Nat.lt_or_ge (t / l) c with h | h
      · exact h
      · exfalso
        have h3 : l * c ≤ l * (t / l) := Nat.mul_le_mul_left l h
        have h4 : l * (t / l) ≤ t := by
          calc l * (t / l) = t / l * l := Nat.mul_comm _ _
            _ ≤ t := Nat.div_mul_le_self t l
        have h5 : t = l * c := le_antisymm hc (h3.trans h4)
        rw [h5, Nat.mul_mod_right] at hr
        exact hr rfl
    exact Nat.succ_le_of_lt h2

/-- `Math.ceil(total / limit)` coincides with ceiling division. -/
theorem jsCeil_eq_ceilDiv (t l : Nat) (hl : 1 ≤ l) : jsCeil t l = t ⌈/⌉ l := by
  apply le_antisymm
  · exact jsCeil_le_of_le_mul t l _ hl
      (by simpa [smul_eq_mul] using le_smul_ceilDiv (show 0 < l by omega) (b := t))
  · exact (ceilDiv_le_iff_le_smul (show 0 < l by omega)).mpr
      (by simpa [smul_eq_mul] using le_mul_jsCeil t l hl)

/-- C4 (counterexample): a process with neither signing secret configured
still starts whenever the database connects — `startServer` performs no
secret check — and the missing secrets instead surface as errors raised
during an individual request's token issuance (`generateAccessToken`,
`generateRefreshToken`) and verification (`verifyAccessToken`,
`verifyRefreshToken`). This refutes the claim that a missing access or
refresh secret is detected once at startup, is fatal, and is never a
per-request error. -/
theorem C4_counterexample :
    serverStarts cfgNoSecrets true = true ∧
    generateAccessToken cfgNoSecrets "u1" 0 =
      .error "JWT_SECRET environment variable is not set" ∧
    verifyAccessToken cfgNoSecrets (jwtSign "u1" "k" 3600 0) 0 =
      .error "JWT_SECRET environment variable is not set" ∧
    generateRefreshToken cfgNoSecrets "u1" 0 =
      .error "JWT_REFRESH_SECRET environment variable is not set" ∧
    verifyRefreshToken cfgNoSecrets (jwtSign "u1" "k" 3600 0) 0 =
      .error "JWT_REFRESH_SECRET environment variable is not set" :=
  ⟨rfl, rfl, rfl, rfl, rfl⟩

/-- C4 (amended): absence of a configured signing secret — access or
refresh — is not checked at startup: the server starts exactly when the
database connection succeeds, independent of both secrets. A missing
access secret is surfaced as an error raised during each individual
access-token issuance or verification, and a missing refresh secret
during each individual refresh-token issuance or verification. -/
theorem C4_missing_secret_is_per_request (c : Config) (db : Bool) (u : String)
    (t now : Int) (tok : SignedToken) :
    serverStarts c db = db ∧
    (c.jwtSecret = none →
      generateAccessToken c u t =
        .error "JWT_SECRET environment variable is not set" ∧
      verifyAccessToken c tok now =
        .error "JWT_SECRET environment variable is not set") ∧
    (c.jwtRefreshSecret = none →
      generateRefreshToken c u t =
        .error "JWT_REFRESH_SECRET environment variable is not set" ∧
      verifyRefreshToken c tok now =
        .error "JWT_REFRESH_SECRET environment variable is not set") := by
  refine ⟨rfl, fun h => ⟨?_, ?_⟩, fun h => ⟨?_, ?_⟩⟩ <;>
    simp [generateAccessToken, verifyAccessToken,
      generateRefreshToken, verifyRefreshToken, h]

/-- Witness for `C4_missing_secret_is_per_request` at a concrete
configuration with neither secret set, discharging both hypotheses. -/
theorem C4_missing_secret_witness :
    cfgNoSecrets.jwtSecret = none ∧
    cfgNoSecrets.jwtRefreshSecret = none ∧
    serverStarts cfgNoSecrets true = true ∧
    generateAccessToken cfgNoSecrets "u" 0 =
      .error "JWT_SECRET environment variable is not set" ∧
    verifyAccessToken cfgNoSecrets (jwtSign "u" "k" 1 0) 0 =
      .error "JWT_SECRET environment variable is not set" ∧
    generateRefreshToken cfgNoSecrets "u" 0 =
      .error "JWT_REFRESH_SECRET environment variable is not set" ∧
    verifyRefreshToken cfgNoSecrets (jwtSign "u" "k" 1 0) 0 =
      .error "JWT_REFRESH_SECRET environment variable is not set" := by
  have h := C4_missing_secret_is_per_request cfgNoSecrets true "u" 0 0
    (jwtSign "u" "k" 1 0)
  exact ⟨rfl, rfl, h.1, (h.2.1 rfl).1, (h.2.1 rfl).2, (h.2.2 rfl).1, (h.2.2 rfl).2⟩

/-- C5: for every user id `u`, verifying an access token after issuing it
for `u` returns `u`, provided the access secret is configured and the
token has not yet expired. -/
theorem C5_verify_access_of_issue (c : Config) (u secret : String) (t t' : Int)
    (tok : SignedToken)
    (hs : c.jwtSecret = some secret)
    (hgen : generateAccessToken c u t = .ok tok)
    (hfresh : t' < t + accessExpire c) :
    ∃ p : JwtPayload, verifyAccessToken c tok t' = .ok p ∧ p.id = u := by
  rw [generateAccessToken, hs] at hgen
  cases hgen
  refine ⟨⟨u, some t, some (t + accessExpire c)⟩, ?_, rfl⟩
  rw [verifyAccessToken, hs]
  simp [jwtVerify, jwtSign, hfresh]

/-- Witness for `C5_verify_access_of_issue`: issuance at time 0 for user
`u1` under `cfgDemo`, verified at time 0. -/
theorem C5_verify_access_witness :
    cfgDemo.jwtSecret = some "access-secret" ∧
    generateAccessToken cfgDemo "u1" 0 = .ok (jwtSign "u1" "access-secret" 3600 0) ∧
    (0 : Int) < 0 + accessExpire cfgDemo ∧
    ∃ p : JwtPayload,
      verifyAccessToken cfgDemo (jwtSign "u1" "access-secret" 3600 0) 0 = .ok p ∧
      p.id = "u1" :=
  ⟨rfl, rfl, by norm_num [accessExpire, cfgDemo],
   C5_verify_access_of_issue cfgDemo "u1" "access-secret" 0 0 _ rfl rfl
     (by norm_num [accessExpire, cfgDemo])⟩

/-- C7: the overdue count of the stats operation counts exactly the
authenticated user's tasks whose due timestamp is strictly before the
current time and whose status is neither COMPLETED nor CANCELLED; in
particular a past-due PENDING task is counted and the same task with
status COMPLETED is not. -/
theorem C7_overdue_count (u : String) (now : Int) (s : Store) :
    (getTaskStats u now s).overdueTasks = s.tasks.countP (overdueWhere u now) ∧
    (∀ t : Task, overdueWhere u now t = true ↔
      (t.userId = u ∧ (∃ d, t.dueDate = some d ∧ d < now) ∧
        t.status ≠ .COMPLETED ∧ t.status ≠ .CANCELLED)) ∧
    (getTaskStats "A" 1 { tasks := [overdueDemoTask], categories := [] }).overdueTasks = 1 ∧
    (getTaskStats "A" 1
        { tasks := [{ overdueDemoTask with status := .COMPLETED }],
          categories := [] }).overdueTasks = 0 := by
  refine ⟨rfl, ?_, by decide, by decide⟩
  intro t
  cases hd : t.dueDate <;> cases hst : t.status <;>
    simp [overdueWhere, hd, hst]

/-- C10: the per-status counts of the stats operation sum to at most the
total, with equality exactly when the user has no CANCELLED task (the
statuses are mutually exclusive and CANCELLED has no dedicated count). -/
theorem C10_stats_sum (u : String) (now : Int) (s : Store) :
    (getTaskStats u now s).pendingTasks + (getTaskStats u now s).inProgressTasks +
        (getTaskStats u now s).completedTasks ≤ (getTaskStats u now s).totalTasks ∧
    ((getTaskStats u now s).pendingTasks + (getTaskStats u now s).inProgressTasks +
        (getTaskStats u now s).completedTasks = (getTaskStats u now s).totalTasks ↔
      ¬ ∃ t ∈ s.tasks, t.userId = u ∧ t.status = .CANCELLED) := by
  have hsplit : s.tasks.countP (fun t => t.userId == u) =
      s.tasks.countP (fun t => t.userId == u && t.status == TaskStatus.PENDING) +
      s.tasks.countP (fun t => t.userId == u && t.status == TaskStatus.IN_PROGRESS) +
      s.tasks.countP (fun t => t.userId == u && t.status == TaskStatus.COMPLETED) +
      s.tasks.countP (fun t => t.userId == u && t.status == TaskStatus.CANCELLED) := by
    induction s.tasks with
    | nil => rfl
    | cons t l ih =>
      simp only [List.countP_cons]
      cases hst : t.status <;> by_cases hu : t.userId = u <;>
        simp [hu, hst, ih] <;> omega
  have hzero : s.tasks.countP (fun t => t.userId == u && t.status == TaskStatus.CANCELLED) = 0 ↔
      ¬ ∃ t ∈ s.tasks, t.userId = u ∧ t.status = TaskStatus.CANCELLED := by
    rw [List.countP_eq_zero]
    constructor
    · rintro h ⟨t, ht, h1, h2⟩
      have := h t ht
      simp [h1, h2] at this
    · intro h t ht hc
      simp only [Bool.and_eq_true, beq_iff_eq] at hc
      exact h ⟨t, ht, hc.1, hc.2⟩
  simp only [getTaskStats]
  rw [hsplit, ← hzero]
  omega

/-- C2: for every get, update or delete of a task or category by id, when
no record with that id owned by the authenticated user exists — whether
the id is absent entirely or names a record owned by another user — the
operation returns the uniform 404 response and leaves the store
unchanged. -/
theorem C2_uniform_not_found (u id : String) (s : Store)
    (bT : UpdateTaskBody) (bC : UpdateCategoryBody)
    (hT : ∀ t ∈ s.tasks, ¬ (t.id = id ∧ t.userId = u))
    (hC : ∀ c ∈ s.categories, ¬ (c.id = id ∧ c.userId = u)) :
    getTask u id s = .err 404 "Task not found" ∧
    updateTask u id bT s = (.err 404 "Task not found", s) ∧
    deleteTask u id s = (.err 404 "Task not found", s) ∧
    getCategory u id s = .err 404 "Category not found" ∧
    updateCategory u id bC s = (.err 404 "Category not found", s) ∧
    deleteCategory u id s = (.err 404 "Category not found", s) := by
  have hT' : s.tasks.find? (fun t => t.id == id && t.userId == u) = none := by
    rw [List.find?_eq_none]
    intro t ht
    simpa using hT t ht
  have hC' : s.categories.find? (fun c => c.id == id && c.userId == u) = none := by
    rw [List.find?_eq_none]
    intro c hc
    simpa using hC c hc
  refine ⟨?_, ?_, ?_, ?_, ?_, ?_⟩ <;>
    simp [getTask, updateTask, deleteTask, getCategory, updateCategory,
      deleteCategory, hT', hC']

/-- C9: deleting a category the authenticated user owns is rejected with a
400 error, leaving tasks and categories unchanged, while the category has
at least one associated task; once it has zero associated tasks the same
deletion succeeds and removes the category (other categories remain). -/
theorem C9_delete_category_guard (u id : String) (s : Store)
    (hex : ∃ c ∈ s.categories, c.id = id ∧ c.userId = u) :
    (0 < s.tasks.countP (fun t => t.categoryId == some id) →
      ∃ msg, deleteCategory u id s = (.err 400 msg, s)) ∧
    (s.tasks.countP (fun t => t.categoryId == some id) = 0 →
      (deleteCategory u id s).1 = .ok () ∧
      (deleteCategory u id s).2.tasks = s.tasks ∧
      (∀ c ∈ (deleteCategory u id s).2.categories, c.id ≠ id) ∧
      (∀ c ∈ s.categories, c.id ≠ id → c ∈ (deleteCategory u id s).2.categories)) := by
  have hsome : (s.categories.find? (fun c => c.id == id && c.userId == u)).isSome := by
    rw [List.find?_isSome]
    obtain ⟨c, hc, h1, h2⟩ := hex
    exact ⟨c, hc, by simp [h1, h2]⟩
  obtain ⟨c0, hc0⟩ := Option.isSome_iff_exists.mp hsome
  constructor
  · intro hpos
    have hres : deleteCategory u id s =
        (.err 400 (s!"Cannot delete category. It has {s.tasks.countP (fun t => t.categoryId == some id)} associated tasks. Please move or delete the tasks first."), s) := by
      simp only [deleteCategory, hc0]
      rw [if_pos hpos]
    exact ⟨_, hres⟩
  · intro hnone
    simp only [deleteCategory, hc0]
    rw [if_neg (by omega)]
    refine ⟨rfl, rfl, ?_, ?_⟩
    · intro c hc
      simp only [List.mem_filter] at hc
      simpa using hc.2
    · intro c hc hne
      simp only [List.mem_filter]
      exact ⟨hc, by simpa using hne⟩

/-- Witness for `C9_delete_category_guard`: deleting `A`'s category `c1`
fails while its task exists and succeeds on the store without the task. -/
theorem C9_delete_category_witness :
    (∃ c ∈ storeWork.categories, c.id = "c1" ∧ c.userId = "A") ∧
    (∃ msg, deleteCategory "A" "c1" storeWork = (.err 400 msg, storeWork)) ∧
    (deleteCategory "A" "c1" storeWorkEmpty).1 = .ok () := by
  have hex : ∃ c ∈ storeWork.categories, c.id = "c1" ∧ c.userId = "A" :=
    ⟨catWork, by simp [storeWork], rfl, rfl⟩
  have hex' : ∃ c ∈ storeWorkEmpty.categories, c.id = "c1" ∧ c.userId = "A" :=
    ⟨catWork, by simp [storeWorkEmpty], rfl, rfl⟩
  exact ⟨hex,
    (C9_delete_category_guard "A" "c1" storeWork hex).1 (by decide),
    ((C9_delete_category_guard "A" "c1" storeWorkEmpty hex').2 (by decide)).1⟩

/-- C8: category-name uniqueness is enforced per owner. Creating a category
whose name one of the authenticated user's own categories already bears is
rejected with a conflict error and the store is unchanged; when the user
owns no category with that name the creation succeeds and appends a
category owned by the user (a same-named category of another user does not
block it). On update, the conflict rejection occurs only when another
category of the same owner, excluding the one being updated, bears the new
name, and occurs whenever such a category exists and a differing truthy
new name is supplied. -/
theorem C8_category_name_per_owner (s : Store) (u n : String) (col : Option String)
    (nid : String) (now : Int) :
    ((∃ c ∈ s.categories, c.name = n ∧ c.userId = u) →
      createCategory u n col nid now s =
        (.err 400 "Category with this name already exists", s)) ∧
    ((¬ ∃ c ∈ s.categories, c.name = n ∧ c.userId = u) →
      ∃ newc : Category, newc.name = n ∧ newc.userId = u ∧
        createCategory u n col nid now s =
          (.ok ⟨newc, categoryTaskCount s nid⟩,
           { s with categories := s.categories ++ [newc] })) ∧
    (∀ id b res, updateCategory u id b s =
        (.err 400 "Category with this name already exists", res) →
      ∃ m, b.name = some m ∧
        ∃ c ∈ s.categories, c.name = m ∧ c.userId = u ∧ c.id ≠ id) ∧
    (∀ id (b : UpdateCategoryBody) ex m,
      s.categories.find? (fun c => c.id == id && c.userId == u) = some ex →
      b.name = some m → m ≠ "" → m ≠ ex.name →
      (∃ c ∈ s.categories, c.name = m ∧ c.userId = u ∧ c.id ≠ id) →
      updateCategory u id b s =
        (.err 400 "Category with this name already exists", s)) := by
  refine ⟨?_, ?_, ?_, ?_⟩
  · intro hex
    have hsome : (s.categories.find? (fun c => c.name == n && c.userId == u)).isSome := by
      rw [List.find?_isSome]
      obtain ⟨c, hc, h1, h2⟩ := hex
      exact ⟨c, hc, by simp [h1, h2]⟩
    obtain ⟨c0, hc0⟩ := Option.isSome_iff_exists.mp hsome
    simp [createCategory, hc0]
  · intro hnone
    have hn : s.categories.find? (fun c => c.name == n && c.userId == u) = none := by
      rw [List.find?_eq_none]
      intro c hc hmatch
      simp only [Bool.and_eq_true, beq_iff_eq] at hmatch
      exact hnone ⟨c, hc, hmatch.1, hmatch.2⟩
    refine ⟨{ id := nid, name := n, color := jsOr col "#3B82F6"
              userId := u, createdAt := now }, rfl, rfl, ?_⟩
    simp [createCategory, hn]
  · intro id b res h
    rcases hpre : s.categories.find? (fun c => c.id == id && c.userId == u) with _ | ex
    · rw [updateCategory, hpre] at h
      simp at h
    · rw [updateCategory] at h
      simp only [hpre] at h
      rcases hb : b.name with _ | m
      · simp only [hb] at h
        rcases hid : s.categories.find? (fun c => c.id == id) with _ | c0 <;>
          simp [hid] at h
      · simp only [hb] at h
        by_cases h1 : m = ""
        · simp only [h1, beq_self_eq_true, if_true] at h
          rcases hid : s.categories.find? (fun c => c.id == id) with _ | c0 <;>
            simp [hid] at h
        · by_cases h2 : m = ex.name
          · simp only [beq_iff_eq, h1, h2, if_false, if_true] at h
            rcases hid : s.categories.find? (fun c => c.id == id) with _ | c0 <;>
              simp [h2, hid] at h
          · simp only [beq_iff_eq, if_neg h1, if_neg h2] at h
            by_cases hs : (s.categories.find?
                (fun c => c.name == m && c.userId == u && !(c.id == id))).isSome
            · obtain ⟨c0, hc0⟩ := Option.isSome_iff_exists.mp hs
              have hpc := List.find?_some hc0
              have hmem := List.mem_of_find?_eq_some hc0
              simp only [Bool.and_eq_true, beq_iff_eq, Bool.not_eq_true',
                beq_eq_false_iff_ne] at hpc
              exact ⟨m, rfl, c0, hmem, hpc.1.1, hpc.1.2, hpc.2⟩
            · simp only [Bool.not_eq_true] at hs
              simp only [hs, if_false] at h
              rcases hid : s.categories.find? (fun c => c.id == id) with _ | c0 <;>
                simp [hid] at h
  · intro id b ex m hpre hb hne hdiff hex
    have hsome : (s.categories.find?
        (fun c => c.name == m && c.userId == u && !(c.id == id))).isSome := by
      rw [List.find?_isSome]
      obtain ⟨c, hc, h1, h2, h3⟩ := hex
      exact ⟨c, hc, by simp [h1, h2, h3]⟩
    rw [updateCategory]
    simp only [hpre, hb, beq_iff_eq, if_neg hne, if_neg hdiff, hsome, if_true]

/-- Witness for `C8_category_name_per_owner`: with `A` owning Work,
creating Work again as `A` conflicts and the store is unchanged, while
creating Work as `B` succeeds. -/
theorem C8_category_name_witness :
    (∃ c ∈ storeWorkEmpty.categories, c.name = "Work" ∧ c.userId = "A") ∧
    createCategory "A" "Work" none "c2" 5 storeWorkEmpty =
      (.err 400 "Category with this name already exists", storeWorkEmpty) ∧
    (¬ ∃ c ∈ storeWorkEmpty.categories, c.name = "Work" ∧ c.userId = "B") ∧
    ∃ newc : Category, newc.name = "Work" ∧ newc.userId = "B" ∧
      createCategory "B" "Work" none "c2" 5 storeWorkEmpty =
        (.ok ⟨newc, categoryTaskCount storeWorkEmpty "c2"⟩,
         { storeWorkEmpty with categories := storeWorkEmpty.categories ++ [newc] }) := by
  have hA : ∃ c ∈ storeWorkEmpty.categories, c.name = "Work" ∧ c.userId = "A" :=
    ⟨catWork, by simp [storeWorkEmpty], rfl, rfl⟩
  have hB : ¬ ∃ c ∈ storeWorkEmpty.categories, c.name = "Work" ∧ c.userId = "B" := by
    rintro ⟨c, hc, h1, h2⟩
    simp only [storeWorkEmpty, List.mem_singleton] at hc
    rw [hc] at h2
    exact absurd h2 (by decide)
  exact ⟨hA,
    (C8_category_name_per_owner storeWorkEmpty "A" "Work" none "c2" 5).1 hA,
    hB,
    (C8_category_name_per_owner storeWorkEmpty "B" "Work" none "c2" 5).2.1 hB⟩

/-- C1 (counterexample): in a store the schema admits, where a task owned
by `B` references `A`'s category `c1`, `A`'s category operations read —
and even return — the foreign-owned record: `getCategory` includes `B`'s
task in its response, and `deleteCategory` is blocked by an
associated-task count (keyed on the category id alone, with no owner
predicate) that counts only `B`'s record, succeeding once the foreign
record is removed. So it is false that every lookup and aggregate includes
the predicate `owner = authenticated_user` and that no operation returns
or reads a record with a different owner. -/
theorem C1_counterexample :
    (∃ d : CategoryDetail, getCategory "A" "c1" sBad = .ok d ∧
      d.tasks.map TaskSummary.id = ["tB"]) ∧
    (∀ t ∈ sBad.tasks, t.id = "tB" → t.userId = "B") ∧
    ("B" : String) ≠ "A" ∧
    deleteCategory "A" "c1" sBad ≠ deleteCategory "A" "c1" (restrict "A" sBad) ∧
    (deleteCategory "A" "c1" sBad).1 ≠ .ok () ∧
    (deleteCategory "A" "c1" (restrict "A" sBad)).1 = .ok () := by
  refine ⟨⟨_, rfl, by decide⟩, by decide, by decide, by decide, by decide, by decide⟩

/-- C1 (amended): every lookup and aggregate of the task and category
operations includes the predicate `owner = authenticated_user`, except the
related-task reads keyed on the category id alone (the task include and
count of the category reads, and the associated-task count guarding
category deletion). On any store satisfying the data model — distinct ids,
intact category references, and category references staying within one
owner — every operation still reads and mutates only records owned by the
authenticated user, regardless of any other filters supplied: each read's
response is unchanged when all foreign-owned records are removed, and
each mutation leaves every foreign-owned record untouched. -/
theorem C1_owner_scoping (u : String) (s : Store)
    (hwf : s.wf) (href : s.ownedRefs) (hfk : s.fkOk) :
    (∀ q, getTasks u q (restrict u s) = getTasks u q s) ∧
    (∀ id, getTask u id (restrict u s) = getTask u id s) ∧
    (∀ now, getTaskStats u now (restrict u s) = getTaskStats u now s) ∧
    (getCategories u (restrict u s) = getCategories u s) ∧
    (∀ id, getCategory u id (restrict u s) = getCategory u id s) ∧
    (∀ b nid now,
      (createTask u b nid now (restrict u s)).1 = (createTask u b nid now s).1 ∧
      (createTask u b nid now s).2.tasks.filter (fun t => !(t.userId == u)) =
        s.tasks.filter (fun t => !(t.userId == u)) ∧
      (createTask u b nid now s).2.categories = s.categories) ∧
    (∀ id b,
      (updateTask u id b (restrict u s)).1 = (updateTask u id b s).1 ∧
      (updateTask u id b s).2.tasks.filter (fun t => !(t.userId == u)) =
        s.tasks.filter (fun t => !(t.userId == u)) ∧
      (updateTask u id b s).2.categories = s.categories) ∧
    (∀ id,
      (deleteTask u id (restrict u s)).1 = (deleteTask u id s).1 ∧
      (deleteTask u id s).2.tasks.filter (fun t => !(t.userId == u)) =
        s.tasks.filter (fun t => !(t.userId == u)) ∧
      (deleteTask u id s).2.categories = s.categories) ∧
    (∀ n col nid now, (∀ c ∈ s.categories, c.id ≠ nid) →
      (createCategory u n col nid now (restrict u s)).1 =
        (createCategory u n col nid now s).1 ∧
      (createCategory u n col nid now s).2.categories.filter
          (fun c => !(c.userId == u)) =
        s.categories.filter (fun c => !(c.userId == u)) ∧
      (createCategory u n col nid now s).2.tasks = s.tasks) ∧
    (∀ id b,
      (updateCategory u id b (restrict u s)).1 = (updateCategory u id b s).1 ∧
      (updateCategory u id b s).2.categories.filter (fun c => !(c.userId == u)) =
        s.categories.filter (fun c => !(c.userId == u)) ∧
      (updateCategory u id b s).2.tasks = s.tasks) ∧
    (∀ id,
      (deleteCategory u id (restrict u s)).1 = (deleteCategory u id s).1 ∧
      (deleteCategory u id s).2.categories.filter (fun c => !(c.userId == u)) =
        s.categories.filter (fun c => !(c.userId == u)) ∧
      (deleteCategory u id s).2.tasks = s.tasks) :=
  ⟨fun q => getTasks_restrict u q s href,
   fun id => getTask_restrict u id s href,
   fun now => getTaskStats_restrict u now s,
   getCategories_restrict u s href,
   fun id => getCategory_restrict u id s href,
   fun b nid now => createTask_scoped u b nid now s hwf,
   fun id b => updateTask_scoped u id b s hwf href,
   fun id => deleteTask_scoped u id s hwf,
   fun n col nid now hfresh => createCategory_scoped u n col nid now s hfk hfresh,
   fun id b => updateCategory_scoped u id b s hwf href,
   fun id => deleteCategory_scoped u id s hwf href⟩

/-- Witness for `C1_owner_scoping` on a concrete well-formed store. -/
theorem C1_owner_scoping_witness :
    getTaskStats "A" 0 (restrict "A" storeWork) = getTaskStats "A" 0 storeWork ∧
    (deleteCategory "A" "c1" storeWork).2.categories.filter
        (fun c => !(c.userId == "A")) =
      storeWork.categories.filter (fun c => !(c.userId == "A")) := by
  have h := C1_owner_scoping "A" storeWork
    (by constructor <;> decide)
    (by unfold Store.ownedRefs; decide)
    (by unfold Store.fkOk; decide)
  exact ⟨h.2.2.1 0, (h.2.2.2.2.2.2.2.2.2.2 "c1").2.1⟩

/-- C3 (counterexample): a list-tasks request whose sort field is not one
of the allowed deterministic-ordering attributes is not rejected with a
validation failure. With `sortBy = "id"` the request succeeds outright,
and with `sortBy = "priority"` the field is still passed through to the
persistence layer in the orderBy clause, whose failure surfaces as a
generic 500, not a validation error. -/
theorem C3_counterexample :
    taskOrderBy { sortBy := "id" } = { field := "id", direction := "desc" } ∧
    (∃ page, getTasks "A" { sortBy := "id" } storeWork = .ok page) ∧
    taskOrderBy { sortBy := "priority" } =
      { field := "priority", direction := "desc" } ∧
    getTasks "A" { sortBy := "priority" } storeWork =
      .err 500 "Internal server error" :=
  ⟨rfl, ⟨_, rfl⟩, rfl, rfl⟩

/-- C3 (amended): the Query Engine performs no validation of the sort-field
parameter: for every request the caller-supplied field name is passed
unchanged to the persistence layer in the orderBy clause, and the list
operation never produces a validation failure — the only error it can
surface is the persistence collaborator's generic internal error (500). -/
theorem C3_sort_field_passthrough (u : String) (q : TaskQuery) (s : Store) :
    (taskOrderBy q).field = q.sortBy ∧
    (∀ st msg, getTasks u q s = .err st msg → st = 500) := by
  refine ⟨rfl, ?_⟩
  intro st msg h
  rcases hp : persistenceFindTasks (taskOrderBy q) (s.tasks.filter (taskWhere u q))
    with e | l <;> simp only [getTasks, hp] at h
  · exact (Resp.err.injEq _ _ _ _).mp h |>.1.symm
  · exact absurd h (by simp)

/-- Witness for `C3_sort_field_passthrough` at a concrete unrecognized
sort field. -/
theorem C3_sort_field_witness :
    (taskOrderBy { sortBy := "priority" }).field = "priority" ∧ (500 : Nat) = 500 :=
  ⟨(C3_sort_field_passthrough "A" { sortBy := "priority" } storeWork).1,
   (C3_sort_field_passthrough "A" { sortBy := "priority" } storeWork).2
     500 "Internal server error" rfl⟩

/-- C6: for a list-tasks request with page ≥ 1 and limit ≥ 1 and an
accepted sort, the sorted matching records decompose as a prefix of
exactly `(page-1)*limit` records (fewer only when the store is exhausted),
then the returned window, then the rest; the window holds at most `limit`
records; the reported total counts all matching records independent of the
window; and the page count is the ceiling of total / limit. In particular,
with 25 tasks of one user, `page=2, limit=10` returns the tasks with
creation times 15 down to 6 and reports 3 pages. -/
theorem C6_pagination (u : String) (q : TaskQuery) (s : Store)
    (hp : 1 ≤ q.page) (hl : 1 ≤ q.limit)
    (hsf : knownSortField q.sortBy = true)
    (hdir : q.sortOrder = "asc" ∨ q.sortOrder = "desc") :
    (∃ r : TasksPage, getTasks u q s = .ok r ∧
      (sortLe (taskLe (taskOrderBy q)) (s.tasks.filter (taskWhere u q)) =
        (sortLe (taskLe (taskOrderBy q)) (s.tasks.filter (taskWhere u q))).take
            ((q.page - 1) * q.limit) ++
          r.tasks.map TaskOut.task ++
          (sortLe (taskLe (taskOrderBy q)) (s.tasks.filter (taskWhere u q))).drop
            ((q.page - 1) * q.limit + q.limit)) ∧
      ((sortLe (taskLe (taskOrderBy q)) (s.tasks.filter (taskWhere u q))).take
          ((q.page - 1) * q.limit)).length =
        min ((q.page - 1) * q.limit) r.pagination.total ∧
      r.tasks.length ≤ q.limit ∧
      r.pagination.total = (s.tasks.filter (taskWhere u q)).length ∧
      r.pagination.pages = r.pagination.total ⌈/⌉ q.limit) ∧
    (∃ r25 : TasksPage,
      getTasks "A" { page := 2, limit := 10 } store25 = .ok r25 ∧
      r25.tasks.map (fun o => o.task.createdAt) =
        [15, 14, 13, 12, 11, 10, 9, 8, 7, 6] ∧
      r25.pagination.total = 25 ∧ r25.pagination.pages = 3) := by
  constructor
  · have hcond : (knownSortField (taskOrderBy q).field &&
        ((taskOrderBy q).direction == "asc" || (taskOrderBy q).direction == "desc")) = true := by
      rcases hdir with h | h <;> simp [taskOrderBy, hsf, h]
    have hok : persistenceFindTasks (taskOrderBy q) (s.tasks.filter (taskWhere u q)) =
        .ok (sortLe (taskLe (taskOrderBy q)) (s.tasks.filter (taskWhere u q))) := by
      rw [persistenceFindTasks, if_pos hcond]
    refine ⟨⟨(((sortLe (taskLe (taskOrderBy q)) (s.tasks.filter (taskWhere u q))).drop
          ((q.page - 1) * q.limit)).take q.limit).map
            (fun t => ⟨t, categoryInfoOf s.categories t.categoryId⟩),
        ⟨q.page, q.limit, s.tasks.countP (taskWhere u q),
         jsCeil (s.tasks.countP (taskWhere u q)) q.limit⟩⟩,
      by simp only [getTasks, hok], ?_, ?_, ?_, ?_, ?_⟩
    · show sortLe (taskLe (taskOrderBy q)) (s.tasks.filter (taskWhere u q)) = _
      rw [List.map_map]
      have hcompid : (TaskOut.task ∘ fun t =>
          ({ task := t, category := categoryInfoOf s.categories t.categoryId } : TaskOut)) =
          id := rfl
      rw [hcompid, List.map_id]
      conv_lhs => rw [← List.take_append_drop ((q.page - 1) * q.limit)
        (sortLe (taskLe (taskOrderBy q)) (s.tasks.filter (taskWhere u q)))]
      rw [List.append_assoc]
      congr 1
      conv_lhs => rw [← List.take_append_drop q.limit
        ((sortLe (taskLe (taskOrderBy q)) (s.tasks.filter (taskWhere u q))).drop
          ((q.page - 1) * q.limit))]
      congr 1
      rw [List.drop_drop, Nat.add_comm]
    · show _ = min ((q.page - 1) * q.limit) (s.tasks.countP (taskWhere u q))
      rw [List.length_take, sortLe_length, List.countP_eq_length_filter]
    · show (List.map _ _).length ≤ q.limit
      rw [List.length_map]
      exact List.length_take_le _ _
    · exact List.countP_eq_length_filter _ _
    · exact jsCeil_eq_ceilDiv _ _ hl
  · exact ⟨_, rfl, by decide, by decide, by decide⟩

/-- Witness for `C6_pagination` at a concrete default query. -/
theorem C6_pagination_witness :
    ∃ r25 : TasksPage,
      getTasks "A" { page := 2, limit := 10 } store25 = .ok r25 ∧
      r25.tasks.map (fun o => o.task.createdAt) =
        [15, 14, 13, 12, 11, 10, 9, 8, 7, 6] ∧
      r25.pagination.total = 25 ∧ r25.pagination.pages = 3 :=
  (C6_pagination "A" {} storeWork (by norm_num) (by norm_num) rfl (Or.inr rfl)).2

/-- Witness for `C2_uniform_not_found`: user `B` addressing an id that
names a task and a category both owned by `A`. -/
theorem C2_uniform_not_found_witness :
    (∀ t ∈ (Store.mk [overdueDemoTask]
        [{ id := "t-od", name := "W", color := "#fff", userId := "A", createdAt := 0 }]).tasks,
      ¬ (t.id = "t-od" ∧ t.userId = "B")) ∧
    getTask "B" "t-od" (Store.mk [overdueDemoTask]
        [{ id := "t-od", name := "W", color := "#fff", userId := "A", createdAt := 0 }]) =
      .err 404 "Task not found" := by
  refine ⟨by decide, ?_⟩
  exact (C2_uniform_not_found "B" "t-od" _ {} {} (by decide) (by decide)).1

end TaskManager
